import Mathlib

/-!
Shallow embedding of the file-lifecycle core of `src/Dropzone.js`
(react-dropzone-uploader): the per-file record and its metadata, the
acceptance pipeline `handleFile`, the preview extractor `generatePreview`,
the upload transport `uploadFile` and its event listeners, and the
operations `handleRemove`, `handleRestart`, `handleCancel`,
`componentWillUnmount`.  JavaScript numbers that matter here are either
integers (sizes, counters, ready states) modelled as naturals, or the
progress percentage, modelled as a rational extended with the IEEE special
values positive infinity and NaN that JavaScript division can produce.
-/

namespace Dropzone

/-- The status strings assigned to `fileWithMeta.meta.status` anywhere in
`Dropzone.js`. -/
inductive Status
  | rejected_file_type
  | rejected_max_files
  | preparing
  | error_file_size
  | error_upload_params
  | uploading
  | headers_received
  | done
  | error_upload
  | aborted
deriving DecidableEq, Repr

/-- A JavaScript number as it arises in the percent computation of the
progress listener (line 229): a finite value, positive infinity (division
of a positive number by zero), or NaN (zero divided by zero).  Finite
values are modelled as exact rationals. -/
inductive JsNum
  | num (q : ℚ)
  | posInf
  | nan
deriving DecidableEq, Repr

/-- The JavaScript expression `(loaded * 100.0) / total` on nonnegative
integer inputs: division by zero yields Infinity for a positive numerator
and NaN for a zero numerator. -/
def jsDivMul100 (loaded total : ℕ) : JsNum :=
  if total = 0 then (if loaded = 0 then JsNum.nan else JsNum.posInf)
  else JsNum.num ((loaded * 100 : ℚ) / (total : ℚ))

/-- The JavaScript expression `x || 100`: the falsy numbers are 0 and NaN,
which are replaced by 100; any other value (including Infinity) is kept. -/
def jsOrElse100 : JsNum → JsNum
  | JsNum.num q => if q = 0 then JsNum.num 100 else JsNum.num q
  | JsNum.nan => JsNum.num 100
  | JsNum.posInf => JsNum.posInf

/-- Line 229: the value stored into `fileWithMeta.meta.percent` by the
progress listener, `((e.loaded * 100.0) / e.total) || 100`. -/
def progressPercent (loaded total : ℕ) : JsNum :=
  jsOrElse100 (jsDivMul100 loaded total)

/-- JavaScript `<=` on the numbers that can be stored as a percent: any
comparison with NaN is false, and Infinity is above every finite value. -/
def JsNum.jsLe : JsNum → JsNum → Bool
  | JsNum.num a, JsNum.num b => decide (a ≤ b)
  | JsNum.num _, JsNum.posInf => true
  | JsNum.posInf, JsNum.num _ => false
  | JsNum.posInf, JsNum.posInf => true
  | JsNum.nan, _ => false
  | _, JsNum.nan => false

/-- A plain JavaScript object regarded as a partial map from keys to
(opaque, string-modelled) values, used for the metadata objects returned
by `onChangeStatus` and by the `meta` key of upload params. -/
def Obj : Type := String → Option String

/-- The JavaScript statement `delete m.k`. -/
def deleteKey (k : String) (m : Obj) : Obj :=
  fun x => if x = k then none else m x

/-- The object spread merge of `a` then `b`: keys of `b` win where
present. -/
def spread (a b : Obj) : Obj :=
  fun k => match b k with
    | some v => some v
    | none => a k

/-- Lines 86 to 94, the metadata part of `handleChangeStatus`: when
`onChangeStatus` returns an object with a `meta` key, that object has its
`status` key deleted and is then spread over the current metadata;
when it returns nothing, the metadata is untouched. -/
def handleChangeStatusMerge (old : Obj) (ret : Option Obj) : Obj :=
  match ret with
  | none => old
  | some m => spread old (deleteKey "status" m)

/-- Lines 208, 209 and 225 of `uploadFile`: the provider-supplied
`meta` (called `extraMeta`) has its `status` key deleted (line 209) and
is later spread over the record metadata (line 225). -/
def uploadExtraMerge (old extraMeta : Obj) : Obj :=
  spread old (deleteKey "status" extraMeta)

/-- The attributes of a raw `File` object read by `handleFile`
(line 97). -/
structure FileDesc where
  name : String
  size : ℕ
  type : String
  lastModified : ℕ
deriving DecidableEq, Repr

/-- The `meta` object of a `fileWithMeta` record: the fields written at
creation (line 104), plus the status field and the optional fields later
written by `generatePreview`. -/
structure Meta where
  name : String
  size : ℕ
  type : String
  lastModifiedDate : Option String
  uploadedDate : String
  percent : JsNum
  id : ℕ
  status : Option Status
  previewUrl : Option String
  width : Option ℕ
  height : Option ℕ
  duration : Option ℚ
  videoWidth : Option ℕ
  videoHeight : Option ℕ
deriving DecidableEq, Repr

/-- A `fileWithMeta` record (line 102): the raw file, the mutable
metadata, and the transport handle `xhr` attached at line 256.  Transport
handles are modelled as tokens drawn from a fresh-token counter so that
distinctness of handles is expressible. -/
structure FileWithMeta where
  file : FileDesc
  meta : Meta
  xhr : Option ℕ
deriving DecidableEq, Repr

/-- The configuration props read by the lifecycle code: the numeric
limits and accept pattern (line 98), whether `getUploadParams` is
configured (lines 141, 206), the black-box `accepts` predicate imported
from `utils` (line 109), and a black-box ISO date formatter standing for
`new Date(ms).toISOString()` (line 101). -/
structure Config where
  accept : String
  minSizeBytes : ℕ
  maxSizeBytes : ℕ
  maxFiles : ℕ
  hasGetUploadParams : Bool
  acceptsFn : FileDesc → String → Bool
  isoOf : ℕ → String

/-- The manager state: the retained collection `this._files` (line 19),
the module-level id counter (line 11), a fresh-token source for transport
handles, and the ghost history `idsEver` of the ids of every record ever
pushed into the collection, used to state lifetime uniqueness. -/
structure DState where
  files : List FileWithMeta
  counter : ℕ
  nextXhr : ℕ
  idsEver : List ℕ
deriving DecidableEq, Repr

/-- The initial manager state: empty collection, id counter 0. -/
def initState : DState :=
  { files := [], counter := 0, nextXhr := 0, idsEver := [] }

/-- The outcome of the synchronous part of `handleFile` for one raw
file, carrying the record as it stands when that part ends. -/
inductive AcceptOutcome
  | rejectedType (t : FileWithMeta)
  | rejectedMax (t : FileWithMeta)
  | errorFileSize (r : FileWithMeta)
  | retained (r : FileWithMeta)
deriving DecidableEq, Repr

/-- The record carried by an `AcceptOutcome`. -/
def AcceptOutcome.record : AcceptOutcome → FileWithMeta
  | AcceptOutcome.rejectedType t => t
  | AcceptOutcome.rejectedMax t => t
  | AcceptOutcome.errorFileSize r => r
  | AcceptOutcome.retained r => r

/-- Lines 96 to 131, the synchronous part of `handleFile` (everything
before `await this.generatePreview`): build the record with the current
counter as `meta.id` and `percent` 0; reject on the type check (lines
109 to 113) or the capacity check (lines 114 to 118) without touching the
state; otherwise set status `preparing`, push the record, increment the
counter (line 124), and apply the size check (lines 126 to 131), which
mutates the already-pushed record to `error_file_size`.  The in-place
mutation of the pushed record is modelled by pushing the updated record;
`now` stands for `new Date().toISOString()` at line 100. -/
def handleFileSync (cfg : Config) (f : FileDesc) (now : String) (s : DState) :
    AcceptOutcome × DState :=
  let meta0 : Meta :=
    { name := f.name, size := f.size, type := f.type
      lastModifiedDate :=
        if f.lastModified = 0 then none else some (cfg.isoOf f.lastModified)
      uploadedDate := now, percent := JsNum.num 0, id := s.counter
      status := none, previewUrl := none, width := none, height := none
      duration := none, videoWidth := none, videoHeight := none }
  let fwm : FileWithMeta := { file := f, meta := meta0, xhr := none }
  if f.type ≠ "application/x-moz-file" ∧ cfg.acceptsFn f cfg.accept = false then
    (AcceptOutcome.rejectedType
      { fwm with meta := { meta0 with status := some Status.rejected_file_type } }, s)
  else if cfg.maxFiles ≤ s.files.length then
    (AcceptOutcome.rejectedMax
      { fwm with meta := { meta0 with status := some Status.rejected_max_files } }, s)
  else
    let fwm1 : FileWithMeta :=
      { fwm with meta := { meta0 with status := some Status.preparing } }
    if f.size < cfg.minSizeBytes ∨ cfg.maxSizeBytes < f.size then
      let fwm2 : FileWithMeta :=
        { fwm1 with meta := { fwm1.meta with status := some Status.error_file_size } }
      (AcceptOutcome.errorFileSize fwm2,
        { files := s.files ++ [fwm2], counter := s.counter + 1
          nextXhr := s.nextXhr, idsEver := s.idsEver ++ [s.counter] })
    else
      (AcceptOutcome.retained fwm1,
        { files := s.files ++ [fwm1], counter := s.counter + 1
          nextXhr := s.nextXhr, idsEver := s.idsEver ++ [s.counter] })

/-- Lines 64 to 71, `handleRemove`: find the index of the record with the
given `meta.id`; if found, splice it out; otherwise do nothing. -/
def handleRemove (i : ℕ) (s : DState) : DState :=
  match s.files.findIdx? (fun f => f.meta.id = i) with
  | none => s
  | some idx => { s with files := s.files.eraseIdx idx }

/-- The synchronous status effect of `handleRestart` (line 75) applied to
the record with the given id inside the collection; the transport side of
restart is modelled by `handleRestart` and `uploadFileResolve` below. -/
def handleRestartById (i : ℕ) (s : DState) : DState :=
  { s with files := s.files.map (fun f =>
      if f.meta.id = i then
        { f with meta := { f.meta with status := some Status.uploading } }
      else f) }

/-- A user-level operation on the manager: accept one raw file (with the
clock reading passed to `handleFile`), remove a record by id, or restart
a record by id. -/
inductive Op
  | acceptF (f : FileDesc) (now : String)
  | removeF (i : ℕ)
  | restartF (i : ℕ)

/-- One operation applied to the manager state. -/
def step (cfg : Config) (s : DState) : Op → DState
  | Op.acceptF f now => (handleFileSync cfg f now s).2
  | Op.removeF i => handleRemove i s
  | Op.restartF i => handleRestartById i s

/-- A sequence of operations applied to the initial manager state. -/
def run (cfg : Config) (ops : List Op) : DState :=
  ops.foldl (step cfg) initState

/-- The asynchronous remainder of an `uploadFile` call as it stands right
after the call returns to its caller: either `getUploadParams` is not
configured, in which case `await getUploadParams(fileWithMeta)` threw and
the async function rejected (no further effect on the record ever
happens), or the call is suspended awaiting the provider. -/
inductive UploadTask
  | noProvider
  | awaitingParams
deriving DecidableEq, Repr

/-- The object returned by the upload-parameter provider, as destructured
at line 208.  Only `url` drives control flow; `fields` and `headers` only
shape the outgoing request, and the `meta` key merge of lines 209 and 225
is modelled by `uploadExtraMerge`. -/
structure UploadParams where
  url : Option String
deriving DecidableEq, Repr

/-- Result of `handleRestart`: the record after the synchronous body and
the state of the upload task it spawned. -/
structure RestartResult where
  record : FileWithMeta
  task : UploadTask
deriving DecidableEq, Repr

/-- Lines 73 to 79, `handleRestart`: call `uploadFile` (whose synchronous
prefix, up to `await getUploadParams(...)`, does not touch the record;
when no provider is configured the call rejects asynchronously instead),
then force `meta.status` to `uploading`. -/
def handleRestart (cfg : Config) (r : FileWithMeta) : RestartResult :=
  { record := { r with meta := { r.meta with status := some Status.uploading } }
    task := if cfg.hasGetUploadParams then UploadTask.awaitingParams
            else UploadTask.noProvider }

/-- Result of the resumption of `uploadFile` once the provider resolves:
the record and the fresh-token counter for transport handles. -/
structure ResolveResult where
  record : FileWithMeta
  nextXhr : ℕ
deriving DecidableEq, Repr

/-- Lines 207 to 257, the resumption of `uploadFile` when
`await getUploadParams(fileWithMeta)` resolves with `params` (`none`
models a nullish return, for which the defaulted destructuring of line
208 yields no `url`): with
no `url`, set status `error_upload_params` and stop (lines 211 to 216);
otherwise build the request and attach a fresh transport handle to the
record (line 256).  The status-stripped merge of the provider `meta`
(lines 209, 225) is modelled by `uploadExtraMerge`. -/
def uploadFileResolve (params : Option UploadParams) (r : FileWithMeta)
    (fresh : ℕ) : ResolveResult :=
  match (params.getD { url := none }).url with
  | none =>
    { record := { r with meta := { r.meta with status := some Status.error_upload_params } }
      nextXhr := fresh }
  | some _ =>
    { record := { r with xhr := some fresh }, nextXhr := fresh + 1 }

/-- Result of `triggerUpload`: the new value of the `triggered` latch,
the record, and the upload task spawned, if any. -/
structure TriggerResult where
  triggered : Bool
  record : FileWithMeta
  task : Option UploadTask
deriving DecidableEq, Repr

/-- Lines 135 to 149, the `triggerUpload` closure: a no-op once
`triggered` is set; otherwise set the latch and either start `uploadFile`
and set status `uploading` (provider configured) or set status `done`
directly.  Neither branch writes `meta.percent` or `xhr`. -/
def triggerUpload (cfg : Config) (triggered : Bool) (r : FileWithMeta) :
    TriggerResult :=
  if triggered then { triggered := triggered, record := r, task := none }
  else if cfg.hasGetUploadParams then
    { triggered := true
      record := { r with meta := { r.meta with status := some Status.uploading } }
      task := some UploadTask.awaitingParams }
  else
    { triggered := true
      record := { r with meta := { r.meta with status := some Status.done } }
      task := none }

/-- Lines 228 to 231, the progress listener: overwrite `meta.percent`
with `((e.loaded * 100.0) / e.total) || 100`. -/
def progressEvent (loaded total : ℕ) (r : FileWithMeta) : FileWithMeta :=
  { r with meta := { r.meta with percent := progressPercent loaded total } }

/-- Lines 233 to 252, the readystatechange listener: ignore ready states
other than 2 and 4; on `xhr.status` 0 set status `aborted`; on a status
below 400 force `percent` to 100 and set `headers_received` (ready state
2) or `done` (ready state 4); otherwise set `error_upload`. -/
def readyStateChange (readyState xhrStatus : ℕ) (r : FileWithMeta) :
    FileWithMeta :=
  if readyState ≠ 2 ∧ readyState ≠ 4 then r
  else if xhrStatus = 0 then
    { r with meta := { r.meta with status := some Status.aborted } }
  else if xhrStatus < 400 then
    let m1 : Meta := { r.meta with percent := JsNum.num 100 }
    let m2 : Meta :=
      if readyState = 2 then { m1 with status := some Status.headers_received } else m1
    let m3 : Meta :=
      if readyState = 4 then { m2 with status := some Status.done } else m2
    { r with meta := m3 }
  else
    { r with meta := { r.meta with status := some Status.error_upload } }

/-- Lines 22 to 26, `componentWillUnmount`: for each record in order
whose status is `uploading`, call `file.xhr.abort()`.  The returned list
collects the aborted handles; `none` models the TypeError thrown when an
uploading record has no `xhr` attached yet, which also stops the loop. -/
def componentWillUnmount : List FileWithMeta → Option (List ℕ)
  | [] => some []
  | f :: fs =>
    if f.meta.status = some Status.uploading then
      match f.xhr with
      | none => none
      | some h => (componentWillUnmount fs).map (fun l => h :: l)
    else componentWillUnmount fs

/-- JavaScript `s.startsWith(p)` (line 164 to 166), computed on the
underlying character lists; extensionally the same test as the string
prefix test of the source. -/
def strStartsWith (s p : String) : Bool :=
  p.toList.isPrefixOf s.toList

/-- The environment a `generatePreview` call runs against: for each media
kind, whether the decode ever fires its success callback (`onload` for
images, `onloadedmetadata` for audio and video; a failed decode fires
neither, so the adapted promise of `fileCallbackToPromise` never
resolves), and the decoded attributes when it does. -/
structure DecodeEnv where
  imageLoads : Bool
  imgWidth : ℕ
  imgHeight : ℕ
  audioLoads : Bool
  audioDuration : ℚ
  videoLoads : Bool
  videoDuration : ℚ
  videoWidth : ℕ
  videoHeight : ℕ
deriving DecidableEq, Repr

/-- Outcome of a `generatePreview` call: whether the async function ever
completes (false means it is suspended forever on a callback that never
fires), the metadata as it stands at completion or at the suspension
point, whether an object URL was created, and whether it was revoked. -/
structure PreviewOutcome where
  completed : Bool
  meta : Meta
  urlCreated : Bool
  urlRevoked : Bool
deriving DecidableEq, Repr

/-- Lines 176 to 183, the image branch: when the branch is enabled, store
the object URL into `meta.previewUrl`, then await `img.onload`; if the
callback never fires the branch suspends forever (error value carries the
metadata at the suspension point), else record width and height. -/
def imageStep (enabled loads : Bool) (w h : ℕ) (url : String) (m : Meta) :
    Except Meta Meta :=
  if enabled then
    let m1 : Meta := { m with previewUrl := some url }
    if loads then Except.ok { m1 with width := some w, height := some h }
    else Except.error m1
  else Except.ok m

/-- Lines 185 to 190, the audio branch: await `audio.onloadedmetadata`,
then record the duration. -/
def audioStep (enabled loads : Bool) (d : ℚ) (m : Meta) : Except Meta Meta :=
  if enabled then
    if loads then Except.ok { m with duration := some d }
    else Except.error m
  else Except.ok m

/-- Lines 192 to 199, the video branch: await `video.onloadedmetadata`,
then record duration and pixel dimensions. -/
def videoStep (enabled loads : Bool) (d : ℚ) (w h : ℕ) (m : Meta) :
    Except Meta Meta :=
  if enabled then
    if loads then
      Except.ok { m with duration := some d, videoWidth := some w
                         videoHeight := some h }
    else Except.error m
  else Except.ok m

/-- Lines 160 to 203, `generatePreview`: return immediately for
non-media types (no object URL created); otherwise create the object URL
and run the three branches in order, each gated on the MIME prefix and
the configured `previewTypes`.  The URL is revoked only at line 200,
after all branches complete; a branch that suspends forever never reaches
it.  The awaited promises resolve or hang but never reject, so the catch
at line 201 is unreachable, and `forceUpdate` has no record effect. -/
def generatePreview (previewTypes : List String) (env : DecodeEnv)
    (url : String) (r : FileWithMeta) : PreviewOutcome :=
  let t := r.meta.type
  let isImage := strStartsWith t "image/"
  let isAudio := strStartsWith t "audio/"
  let isVideo := strStartsWith t "video/"
  if isImage = false ∧ isAudio = false ∧ isVideo = false then
    { completed := true, meta := r.meta, urlCreated := false, urlRevoked := false }
  else
    match imageStep (isImage && previewTypes.contains "image") env.imageLoads
        env.imgWidth env.imgHeight url r.meta with
    | Except.error m =>
      { completed := false, meta := m, urlCreated := true, urlRevoked := false }
    | Except.ok m1 =>
      match audioStep (isAudio && previewTypes.contains "audio") env.audioLoads
          env.audioDuration m1 with
      | Except.error m =>
        { completed := false, meta := m, urlCreated := true, urlRevoked := false }
      | Except.ok m2 =>
        match videoStep (isVideo && previewTypes.contains "video") env.videoLoads
            env.videoDuration env.videoWidth env.videoHeight m2 with
        | Except.error m =>
          { completed := false, meta := m, urlCreated := true, urlRevoked := false }
        | Except.ok m3 =>
          { completed := true, meta := m3, urlCreated := true, urlRevoked := true }

/-- A configuration with no upload-parameter provider and an
accept-everything predicate, used for concrete evaluations. -/
def cfgNoUpload : Config :=
  { accept := "*", minSizeBytes := 0, maxSizeBytes := 1000, maxFiles := 10
    hasGetUploadParams := false, acceptsFn := fun _ _ => true
    isoOf := fun n => toString n }

/-- The same configuration with an upload-parameter provider. -/
def cfgUpload : Config :=
  { cfgNoUpload with hasGetUploadParams := true }

/-- A concrete raw file that passes the type, capacity and size checks of
`cfgNoUpload`. -/
def fileA : FileDesc :=
  { name := "a.txt", size := 500, type := "text/plain", lastModified := 5 }

/-- The record retained for `fileA` from the initial state. -/
def acceptedA : FileWithMeta :=
  ((handleFileSync cfgNoUpload fileA "t0" initState).1).record

/-- A record in status `uploading` with transport handle 0 attached, as
after a started upload. -/
def uploadingRec : FileWithMeta :=
  { acceptedA with
    meta := { acceptedA.meta with status := some Status.uploading }
    xhr := some 0 }

/-- A record in status `uploading` whose upload was started but whose
transport handle is not yet attached: `triggerUpload` and `handleRestart`
set the status before `uploadFile` reaches line 256. -/
def uploadingNoXhr : FileWithMeta :=
  { acceptedA with
    meta := { acceptedA.meta with status := some Status.uploading }
    xhr := none }

/-- A record in the terminal status `error_upload` with transport handle
0 still attached. -/
def errorUploadRec : FileWithMeta :=
  { acceptedA with
    meta := { acceptedA.meta with status := some Status.error_upload }
    xhr := some 0 }

/-- A concrete image file accepted by `cfgNoUpload`. -/
def imageFile : FileDesc :=
  { name := "a.png", size := 500, type := "image/png", lastModified := 5 }

/-- The record retained for `imageFile` from the initial state. -/
def acceptedImage : FileWithMeta :=
  ((handleFileSync cfgNoUpload imageFile "t0" initState).1).record

/-- A decode environment in which every decode succeeds. -/
def envAllLoad : DecodeEnv :=
  { imageLoads := true, imgWidth := 10, imgHeight := 20
    audioLoads := true, audioDuration := 3
    videoLoads := true, videoDuration := 4, videoWidth := 30, videoHeight := 40 }

/-- A decode environment in which every decode fails, so no success
callback ever fires. -/
def envNoneLoad : DecodeEnv :=
  { imageLoads := false, imgWidth := 0, imgHeight := 0
    audioLoads := false, audioDuration := 0
    videoLoads := false, videoDuration := 0, videoWidth := 0, videoHeight := 0 }

/-- The default `previewTypes` prop (line 447). -/
def allPreviewTypes : List String := ["image", "audio", "video"]

/-- A concrete metadata object for the merge model: the record has status
`uploading` and a field `a` with value `1`. -/
def oldObjSample : Obj :=
  fun k => if k = "status" then some "uploading"
           else if k = "a" then some "1" else none

/-- A concrete collaborator-returned metadata object that tries to
overwrite `status` and also updates the field `a`. -/
def retObjSample : Obj :=
  fun k => if k = "status" then some "overwritten"
           else if k = "a" then some "2" else none

/-- A configuration whose accept predicate admits only image MIME types,
used to produce concrete type rejections. -/
def cfgStrict : Config :=
  { cfgNoUpload with acceptsFn := fun f _ => strStartsWith f.type "image/" }

/-- The strict configuration with capacity zero, used to produce concrete
capacity rejections. -/
def cfgZeroMax : Config :=
  { cfgStrict with maxFiles := 0 }

/-- The id-uniqueness invariant of the manager state: the ghost history
of ids of records ever retained is duplicate free and below the counter,
and every record in the current collection carries one of those ids, the
current ids being themselves duplicate free. -/
def Inv (s : DState) : Prop :=
  s.idsEver.Nodup ∧
  (∀ i ∈ s.idsEver, i < s.counter) ∧
  (∀ f ∈ s.files, f.meta.id ∈ s.idsEver) ∧
  (s.files.map (fun f => f.meta.id)).Nodup

/-- With a positive byte count and a positive total, the stored percent
is the exact quotient times 100. -/
theorem progressPercent_pos_eq (loaded total : ℕ) (hl : 0 < loaded)
    (ht : 0 < total) :
    progressPercent loaded total =
      JsNum.num ((loaded * 100 : ℚ) / (total : ℚ)) := by
  have ht' : total ≠ 0 := Nat.pos_iff_ne_zero.mp ht
  have hq : (0 : ℚ) < (loaded * 100 : ℚ) / (total : ℚ) := by
    apply div_pos
    · have : (0 : ℚ) < (loaded : ℚ) := by exact_mod_cast hl
      nlinarith
    · exact_mod_cast ht
  unfold progressPercent jsDivMul100 jsOrElse100
  rw [if_neg ht']
  simp [ne_of_gt hq]

/-- A progress event with zero bytes loaded stores percent 100, whatever
the total. -/
theorem progressPercent_zero_loaded (total : ℕ) :
    progressPercent 0 total = JsNum.num 100 := by
  rcases Nat.eq_zero_or_pos total with h | h
  · subst h; rfl
  · have ht' : total ≠ 0 := Nat.pos_iff_ne_zero.mp h
    unfold progressPercent jsDivMul100 jsOrElse100
    rw [if_neg ht']
    simp

/-- A progress event with a positive loaded count and total zero stores
positive infinity. -/
theorem progressPercent_total_zero (loaded : ℕ) (hl : 0 < loaded) :
    progressPercent loaded 0 = JsNum.posInf := by
  have hl' : loaded ≠ 0 := Nat.pos_iff_ne_zero.mp hl
  unfold progressPercent jsDivMul100 jsOrElse100
  simp [hl']

/-- The image branch never writes `meta.percent` (completed case). -/
theorem imageStep_ok_percent (e l : Bool) (w h : ℕ) (url : String)
    (m m1 : Meta) (heq : imageStep e l w h url m = Except.ok m1) :
    m1.percent = m.percent := by
  unfold imageStep at heq
  by_cases he : e = true <;> by_cases hl : l = true <;>
    simp [he, hl] at heq <;> subst heq <;> rfl

/-- The image branch never writes `meta.percent` (suspended case). -/
theorem imageStep_error_percent (e l : Bool) (w h : ℕ) (url : String)
    (m m1 : Meta) (heq : imageStep e l w h url m = Except.error m1) :
    m1.percent = m.percent := by
  unfold imageStep at heq
  by_cases he : e = true <;> by_cases hl : l = true <;>
    simp [he, hl] at heq <;> subst heq <;> rfl

/-- The audio branch never writes `meta.percent` (completed case). -/
theorem audioStep_ok_percent (e l : Bool) (d : ℚ) (m m1 : Meta)
    (heq : audioStep e l d m = Except.ok m1) : m1.percent = m.percent := by
  unfold audioStep at heq
  by_cases he : e = true <;> by_cases hl : l = true <;>
    simp [he, hl] at heq <;> subst heq <;> rfl

/-- The audio branch never writes `meta.percent` (suspended case). -/
theorem audioStep_error_percent (e l : Bool) (d : ℚ) (m m1 : Meta)
    (heq : audioStep e l d m = Except.error m1) : m1.percent = m.percent := by
  unfold audioStep at heq
  by_cases he : e = true <;> by_cases hl : l = true <;>
    simp [he, hl] at heq <;> subst heq <;> rfl

/-- The video branch never writes `meta.percent` (completed case). -/
theorem videoStep_ok_percent (e l : Bool) (d : ℚ) (w h : ℕ) (m m1 : Meta)
    (heq : videoStep e l d w h m = Except.ok m1) : m1.percent = m.percent := by
  unfold videoStep at heq
  by_cases he : e = true <;> by_cases hl : l = true <;>
    simp [he, hl] at heq <;> subst heq <;> rfl

/-- The video branch never writes `meta.percent` (suspended case). -/
theorem videoStep_error_percent (e l : Bool) (d : ℚ) (w h : ℕ) (m m1 : Meta)
    (heq : videoStep e l d w h m = Except.error m1) : m1.percent = m.percent := by
  unfold videoStep at heq
  by_cases he : e = true <;> by_cases hl : l = true <;>
    simp [he, hl] at heq <;> subst heq <;> rfl

/-- `generatePreview` never writes `meta.percent`. -/
theorem generatePreview_percent (pt : List String) (env : DecodeEnv)
    (url : String) (r : FileWithMeta) :
    (generatePreview pt env url r).meta.percent = r.meta.percent := by
  dsimp only [generatePreview]
  split
  · rfl
  · cases him : imageStep (strStartsWith r.meta.type "image/" && pt.contains "image")
        env.imageLoads env.imgWidth env.imgHeight url r.meta with
    | error m =>
      exact imageStep_error_percent _ _ _ _ _ _ _ him
    | ok m1 =>
      dsimp only
      have h1 := imageStep_ok_percent _ _ _ _ _ _ _ him
      cases hau : audioStep (strStartsWith r.meta.type "audio/" && pt.contains "audio")
          env.audioLoads env.audioDuration m1 with
      | error m =>
        exact (audioStep_error_percent _ _ _ _ _ hau).trans h1
      | ok m2 =>
        dsimp only
        have h2 := audioStep_ok_percent _ _ _ _ _ hau
        cases hvi : videoStep (strStartsWith r.meta.type "video/" && pt.contains "video")
            env.videoLoads env.videoDuration env.videoWidth env.videoHeight m2 with
        | error m =>
          exact ((videoStep_error_percent _ _ _ _ _ _ _ hvi).trans h2).trans h1
        | ok m3 =>
          exact ((videoStep_ok_percent _ _ _ _ _ _ _ hvi).trans h2).trans h1

/-- Claim C7: the status key of externally supplied metadata is stripped
before merging, both for the object returned by the StatusChangeNotifier
and for the provider-supplied extra metadata, so the merged metadata
keeps the status of the record; every key other than status is merged
exactly as a plain spread of the supplied object would merge it. -/
theorem c7_status_never_overwritten :
    (∀ (old m : Obj),
       handleChangeStatusMerge old (some m) "status" = old "status") ∧
    (∀ (old m : Obj) (k : String), k ≠ "status" →
       handleChangeStatusMerge old (some m) k = spread old m k) ∧
    (∀ old : Obj, handleChangeStatusMerge old none = old) ∧
    (∀ (old em : Obj), uploadExtraMerge old em "status" = old "status") ∧
    (∀ (old em : Obj) (k : String), k ≠ "status" →
       uploadExtraMerge old em k = spread old em k) := by
  refine ⟨?_, ?_, ?_, ?_, ?_⟩ <;> intros <;>
    simp_all [handleChangeStatusMerge, uploadExtraMerge, spread, deleteKey]

/-- Witness for C7 at a concrete metadata object that tries to overwrite
the status and updates another field. -/
theorem c7_witness :
    ("a" : String) ≠ "status" ∧
    handleChangeStatusMerge oldObjSample (some retObjSample) "status"
      = oldObjSample "status" ∧
    handleChangeStatusMerge oldObjSample (some retObjSample) "a"
      = spread oldObjSample retObjSample "a" ∧
    uploadExtraMerge oldObjSample retObjSample "status"
      = oldObjSample "status" ∧
    uploadExtraMerge oldObjSample retObjSample "a"
      = spread oldObjSample retObjSample "a" :=
  ⟨by decide,
   c7_status_never_overwritten.1 oldObjSample retObjSample,
   c7_status_never_overwritten.2.1 oldObjSample retObjSample "a" (by decide),
   c7_status_never_overwritten.2.2.2.1 oldObjSample retObjSample,
   c7_status_never_overwritten.2.2.2.2 oldObjSample retObjSample "a" (by decide)⟩

/-- Claim C6 counterexample: at a progress event with loaded 0 and total
2 the code stores percent 100 although loaded divided by total times 100
is 0 and total is neither unknown nor zero; and at a progress event with
loaded 5 and total 0 the code stores positive infinity, not the claimed
clamp value 100. -/
theorem c6_counterexample :
    (progressEvent 0 2 uploadingRec).meta.percent = JsNum.num 100 ∧
    ((0 : ℚ) / (2 : ℚ)) * 100 = 0 ∧
    JsNum.num 100 ≠ JsNum.num (((0 : ℚ) / (2 : ℚ)) * 100) ∧
    (progressEvent 5 0 uploadingRec).meta.percent = JsNum.posInf ∧
    JsNum.posInf ≠ JsNum.num 100 := by
  refine ⟨?_, by norm_num, by norm_num, ?_, by simp⟩
  · show progressPercent 0 2 = JsNum.num 100
    exact progressPercent_zero_loaded 2
  · show progressPercent 5 0 = JsNum.posInf
    exact progressPercent_total_zero 5 (by decide)

/-- Claim C6 amended: on a progress event the new percent equals loaded
divided by total times 100 whenever loaded and total are both positive; a
progress event with loaded 0 stores exactly 100 whatever the total; and
when total is 0 with loaded positive the stored value is positive
infinity, not 100. -/
theorem c6_amended :
    (∀ (loaded total : ℕ) (r : FileWithMeta), 0 < loaded → 0 < total →
       (progressEvent loaded total r).meta.percent
         = JsNum.num ((loaded * 100 : ℚ) / (total : ℚ))) ∧
    (∀ (total : ℕ) (r : FileWithMeta),
       (progressEvent 0 total r).meta.percent = JsNum.num 100) ∧
    (∀ (loaded : ℕ) (r : FileWithMeta), 0 < loaded →
       (progressEvent loaded 0 r).meta.percent = JsNum.posInf) := by
  refine ⟨?_, ?_, ?_⟩
  · intro loaded total r hl ht
    show progressPercent loaded total = _
    exact progressPercent_pos_eq loaded total hl ht
  · intro total r
    exact progressPercent_zero_loaded total
  · intro loaded r hl
    exact progressPercent_total_zero loaded hl

/-- Witness for C6 at concrete progress events. -/
theorem c6_witness :
    (0 < 5 ∧ 0 < 10 ∧ (progressEvent 5 10 uploadingRec).meta.percent
       = JsNum.num (((5 : ℕ) * 100 : ℚ) / ((10 : ℕ) : ℚ))) ∧
    (progressEvent 0 7 uploadingRec).meta.percent = JsNum.num 100 ∧
    (0 < 5 ∧ (progressEvent 5 0 uploadingRec).meta.percent = JsNum.posInf) :=
  ⟨⟨by decide, by decide,
    c6_amended.1 5 10 uploadingRec (by decide) (by decide)⟩,
   c6_amended.2.1 7 uploadingRec,
   ⟨by decide, c6_amended.2.2 5 uploadingRec (by decide)⟩⟩

/-- Claim C4, evaluation at the failing input: an image file with image
previews enabled whose decode never fires the load callback leaves
`generatePreview` suspended forever (it never completes, so the pipeline
of `handleFile` never reaches the ready gate), and the object URL is not
even revoked. -/
theorem c4_code_bug :
    strStartsWith acceptedImage.meta.type "image/" = true ∧
    allPreviewTypes.contains "image" = true ∧
    (generatePreview allPreviewTypes envNoneLoad "blob:a" acceptedImage).completed
      = false ∧
    (generatePreview allPreviewTypes envNoneLoad "blob:a" acceptedImage).urlRevoked
      = false :=
  ⟨rfl, rfl, rfl, rfl⟩

/-- Claim C5, evaluation at the failing input: for an image record whose
decode succeeds, the extractor retains the object URL in
`meta.previewUrl` and nevertheless revokes that same URL itself at line
200, releasing the display handle the claim says is left to the
caller. -/
theorem c5_code_bug :
    (generatePreview allPreviewTypes envAllLoad "blob:a" acceptedImage).completed
      = true ∧
    (generatePreview allPreviewTypes envAllLoad "blob:a" acceptedImage).meta.previewUrl
      = some "blob:a" ∧
    (generatePreview allPreviewTypes envAllLoad "blob:a" acceptedImage).urlRevoked
      = true :=
  ⟨rfl, rfl, rfl⟩

/-- Claim C2 counterexample: on a record in status uploading, a progress
event with loaded 0 and total 10 stores percent 100, and the next event
with loaded 5 and total 10 stores percent 50, a strict decrease; and a
record that reaches the terminal status done through `triggerUpload`
with no provider configured has percent 0, not 100. -/
theorem c2_counterexample :
    uploadingRec.meta.status = some Status.uploading ∧
    (progressEvent 0 10 uploadingRec).meta.percent = JsNum.num 100 ∧
    (progressEvent 5 10 (progressEvent 0 10 uploadingRec)).meta.percent
      = JsNum.num 50 ∧
    JsNum.jsLe (JsNum.num 100) (JsNum.num 50) = false ∧
    (triggerUpload cfgNoUpload false acceptedA).record.meta.status
      = some Status.done ∧
    (triggerUpload cfgNoUpload false acceptedA).record.meta.percent
      = JsNum.num 0 ∧
    JsNum.num 0 ≠ JsNum.num 100 := by
  refine ⟨rfl, progressPercent_zero_loaded 10, ?_, ?_, rfl, rfl, by norm_num⟩
  · show progressPercent 5 10 = JsNum.num 50
    rw [progressPercent_pos_eq 5 10 (by decide) (by decide)]
    norm_num
  · show decide ((100 : ℚ) ≤ (50 : ℚ)) = false
    norm_num

/-- Claim C2 amended: while uploading, percent is non-decreasing across
progress events whose loaded counts are positive and non-decreasing with
the same positive total, but an event with loaded 0 forces percent to 100
and a later event can decrease it; percent is forced to exactly 100 at
headers_received and done when those statuses are reached through the
transport response handling; a record that reaches done without a
transport keeps its previous percent (0 as initialised). -/
theorem c2_amended :
    (∀ (r : FileWithMeta) (l1 t l2 : ℕ), 0 < l1 → l1 ≤ l2 → 0 < t →
       JsNum.jsLe (progressEvent l1 t r).meta.percent
         (progressEvent l2 t (progressEvent l1 t r)).meta.percent = true) ∧
    (∀ (rs st : ℕ) (r : FileWithMeta), rs = 2 ∨ rs = 4 → st ≠ 0 → st < 400 →
       (readyStateChange rs st r).meta.percent = JsNum.num 100 ∧
       (readyStateChange rs st r).meta.status
         = some (if rs = 2 then Status.headers_received else Status.done)) ∧
    (∀ (cfg : Config) (tr : Bool) (r : FileWithMeta),
       (triggerUpload cfg tr r).record.meta.percent = r.meta.percent) := by
  refine ⟨?_, ?_, ?_⟩
  · intro r l1 t l2 hl1 hle ht
    have hl2 : 0 < l2 := lt_of_lt_of_le hl1 hle
    show JsNum.jsLe (progressPercent l1 t) (progressPercent l2 t) = true
    rw [progressPercent_pos_eq l1 t hl1 ht, progressPercent_pos_eq l2 t hl2 ht]
    show decide ((l1 * 100 : ℚ) / (t : ℚ) ≤ (l2 * 100 : ℚ) / (t : ℚ)) = true
    rw [decide_eq_true_eq]
    have ht' : (0 : ℚ) < (t : ℚ) := by exact_mod_cast ht
    have hle' : (l1 : ℚ) ≤ (l2 : ℚ) := by exact_mod_cast hle
    gcongr
  · intro rs st r hrs hst0 hst400
    rcases hrs with h | h <;> subst h <;>
      refine ⟨?_, ?_⟩ <;> simp [readyStateChange, hst0, hst400]
  · intro cfg tr r
    unfold triggerUpload
    split
    · rfl
    · split <;> rfl

/-- Witness for C2 at concrete events and a concrete transport
response. -/
theorem c2_witness :
    (0 < 1 ∧ 1 ≤ 5 ∧ 0 < 10 ∧
      JsNum.jsLe (progressEvent 1 10 uploadingRec).meta.percent
        (progressEvent 5 10 (progressEvent 1 10 uploadingRec)).meta.percent
        = true) ∧
    ((4 = 2 ∨ 4 = 4) ∧ (200 : ℕ) ≠ 0 ∧ 200 < 400 ∧
      (readyStateChange 4 200 uploadingRec).meta.percent = JsNum.num 100 ∧
      (readyStateChange 4 200 uploadingRec).meta.status
        = some (if 4 = 2 then Status.headers_received else Status.done)) ∧
    (triggerUpload cfgNoUpload false acceptedA).record.meta.percent
      = acceptedA.meta.percent :=
  ⟨⟨by decide, by decide, by decide,
    c2_amended.1 uploadingRec 1 10 5 (by decide) (by decide) (by decide)⟩,
   ⟨Or.inr rfl, by decide, by decide,
    (c2_amended.2.1 4 200 uploadingRec (Or.inr rfl) (by decide) (by decide)).1,
    (c2_amended.2.1 4 200 uploadingRec (Or.inr rfl) (by decide) (by decide)).2⟩,
   c2_amended.2.2 cfgNoUpload false acceptedA⟩

/-- Claim C1 counterexample: a concrete file that passes the type,
capacity and size checks, with no upload-parameter provider configured,
is left by the upload trigger in status done with percent 0, not the
claimed 100 (no transport handle is attached, as claimed). -/
theorem c1_counterexample :
    (handleFileSync cfgNoUpload fileA "t0" initState).1
      = AcceptOutcome.retained acceptedA ∧
    cfgNoUpload.hasGetUploadParams = false ∧
    (triggerUpload cfgNoUpload false acceptedA).record.meta.status
      = some Status.done ∧
    (triggerUpload cfgNoUpload false acceptedA).record.meta.percent
      = JsNum.num 0 ∧
    JsNum.num 0 ≠ JsNum.num 100 ∧
    (triggerUpload cfgNoUpload false acceptedA).record.xhr = none :=
  ⟨rfl, rfl, rfl, rfl, by norm_num, rfl⟩

/-- Claim C1 amended: for every raw file that passes the type, capacity
and size checks, when no upload-parameter provider is configured, the
upload trigger sets the record status to done while leaving percent at
its initial value 0 (not 100), and no transport handle is ever
attached. -/
theorem c1_amended :
    ∀ (cfg : Config) (f : FileDesc) (now : String) (s : DState)
      (pt : List String) (env : DecodeEnv) (url : String),
      cfg.hasGetUploadParams = false →
      (f.type = "application/x-moz-file" ∨ cfg.acceptsFn f cfg.accept = true) →
      s.files.length < cfg.maxFiles →
      cfg.minSizeBytes ≤ f.size → f.size ≤ cfg.maxSizeBytes →
      ∃ r : FileWithMeta,
        (handleFileSync cfg f now s).1 = AcceptOutcome.retained r ∧
        r.meta.percent = JsNum.num 0 ∧ r.xhr = none ∧
        (triggerUpload cfg false
            { r with meta := (generatePreview pt env url r).meta }).record.meta.status
          = some Status.done ∧
        (triggerUpload cfg false
            { r with meta := (generatePreview pt env url r).meta }).record.meta.percent
          = JsNum.num 0 ∧
        (triggerUpload cfg false
            { r with meta := (generatePreview pt env url r).meta }).record.xhr
          = none ∧
        (triggerUpload cfg false
            { r with meta := (generatePreview pt env url r).meta }).task = none := by
  intro cfg f now s pt env url h0 h1 h2 h3 h4
  have hc1 : ¬(f.type ≠ "application/x-moz-file" ∧
      cfg.acceptsFn f cfg.accept = false) := by
    rcases h1 with h | h
    · exact fun hc => hc.1 h
    · intro hc
      rw [h] at hc
      exact Bool.noConfusion hc.2
  have hc2 : ¬(cfg.maxFiles ≤ s.files.length) := Nat.not_le.mpr h2
  have hc3 : ¬(f.size < cfg.minSizeBytes ∨ cfg.maxSizeBytes < f.size) := by
    push_neg
    exact ⟨h3, h4⟩
  dsimp only [handleFileSync]
  rw [if_neg hc1, if_neg hc2, if_neg hc3]
  refine ⟨_, rfl, rfl, rfl, ?_, ?_, ?_, ?_⟩
  · simp [triggerUpload, h0]
  · simp only [triggerUpload, h0, Bool.false_eq_true, if_false]
    show (generatePreview pt env url _).meta.percent = JsNum.num 0
    rw [generatePreview_percent]
  · simp [triggerUpload, h0]
  · simp [triggerUpload, h0]

/-- Witness for C1 at a concrete passing file with no provider
configured. -/
theorem c1_witness :
    cfgNoUpload.hasGetUploadParams = false ∧
    (fileA.type = "application/x-moz-file" ∨
      cfgNoUpload.acceptsFn fileA cfgNoUpload.accept = true) ∧
    initState.files.length < cfgNoUpload.maxFiles ∧
    cfgNoUpload.minSizeBytes ≤ fileA.size ∧
    fileA.size ≤ cfgNoUpload.maxSizeBytes ∧
    ∃ r : FileWithMeta,
      (handleFileSync cfgNoUpload fileA "t0" initState).1
        = AcceptOutcome.retained r ∧
      r.meta.percent = JsNum.num 0 ∧ r.xhr = none ∧
      (triggerUpload cfgNoUpload false
          { r with meta := (generatePreview allPreviewTypes envAllLoad "blob:a" r).meta }).record.meta.status
        = some Status.done ∧
      (triggerUpload cfgNoUpload false
          { r with meta := (generatePreview allPreviewTypes envAllLoad "blob:a" r).meta }).record.meta.percent
        = JsNum.num 0 ∧
      (triggerUpload cfgNoUpload false
          { r with meta := (generatePreview allPreviewTypes envAllLoad "blob:a" r).meta }).record.xhr
        = none ∧
      (triggerUpload cfgNoUpload false
          { r with meta := (generatePreview allPreviewTypes envAllLoad "blob:a" r).meta }).task
        = none :=
  ⟨rfl, Or.inr rfl, by decide, by decide, by decide,
   c1_amended cfgNoUpload fileA "t0" initState allPreviewTypes envAllLoad
     "blob:a" rfl (Or.inr rfl) (by decide) (by decide) (by decide)⟩

/-- Claim C3 counterexample: restarting a record in terminal status
error_upload when the configured provider yields no url does force the
status to uploading synchronously, but once the provider resolves the
record ends in error_upload_params with its transport handle unchanged:
no new transport handle distinct from the prior one is ever created. -/
theorem c3_counterexample :
    errorUploadRec.meta.status = some Status.error_upload ∧
    (handleRestart cfgUpload errorUploadRec).record.meta.status
      = some Status.uploading ∧
    (uploadFileResolve (some { url := none })
        (handleRestart cfgUpload errorUploadRec).record 5).record.xhr
      = errorUploadRec.xhr ∧
    errorUploadRec.xhr = some 0 ∧
    (uploadFileResolve (some { url := none })
        (handleRestart cfgUpload errorUploadRec).record 5).record.meta.status
      = some Status.error_upload_params :=
  ⟨rfl, rfl, rfl, rfl, rfl⟩

/-- Claim C3 amended: restart synchronously forces the status to
uploading without faulting and without touching the transport handle or
percent; when the provider later yields a url, a fresh transport handle
distinct from the prior one replaces it; when the provider yields no url
(or a nullish result) the record moves to error_upload_params and the
handle is unchanged; when no provider is configured the spawned upload
task rejects and no handle is ever attached. -/
theorem c3_amended :
    (∀ (cfg : Config) (r : FileWithMeta),
       (handleRestart cfg r).record.meta.status = some Status.uploading ∧
       (handleRestart cfg r).record.xhr = r.xhr ∧
       (handleRestart cfg r).record.meta.percent = r.meta.percent) ∧
    (∀ (p : UploadParams) (u : String) (r : FileWithMeta) (fresh h : ℕ),
       p.url = some u → r.xhr = some h → h < fresh →
       (uploadFileResolve (some p) r fresh).record.xhr = some fresh ∧
       (uploadFileResolve (some p) r fresh).record.xhr ≠ r.xhr ∧
       (uploadFileResolve (some p) r fresh).nextXhr = fresh + 1) ∧
    (∀ (p : UploadParams) (r : FileWithMeta) (fresh : ℕ), p.url = none →
       (uploadFileResolve (some p) r fresh).record.meta.status
         = some Status.error_upload_params ∧
       (uploadFileResolve (some p) r fresh).record.xhr = r.xhr) ∧
    (∀ (r : FileWithMeta) (fresh : ℕ),
       (uploadFileResolve none r fresh).record.meta.status
         = some Status.error_upload_params ∧
       (uploadFileResolve none r fresh).record.xhr = r.xhr) ∧
    (∀ (cfg : Config) (r : FileWithMeta), cfg.hasGetUploadParams = false →
       (handleRestart cfg r).task = UploadTask.noProvider) := by
  refine ⟨?_, ?_, ?_, ?_, ?_⟩
  · intro cfg r
    exact ⟨rfl, rfl, rfl⟩
  · intro p u r fresh h hp hr hlt
    rcases p with ⟨pu⟩
    simp only at hp
    subst hp
    refine ⟨rfl, ?_, rfl⟩
    show some fresh ≠ r.xhr
    rw [hr]
    simp only [ne_eq, Option.some.injEq]
    omega
  · intro p r fresh hp
    rcases p with ⟨pu⟩
    simp only at hp
    subst hp
    exact ⟨rfl, rfl⟩
  · intro r fresh
    exact ⟨rfl, rfl⟩
  · intro cfg r h
    unfold handleRestart
    simp [h]

/-- Witness for C3 at a concrete record in error_upload with a prior
handle. -/
theorem c3_witness :
    ((handleRestart cfgUpload errorUploadRec).record.meta.status
       = some Status.uploading ∧
     (handleRestart cfgUpload errorUploadRec).record.xhr
       = errorUploadRec.xhr ∧
     (handleRestart cfgUpload errorUploadRec).record.meta.percent
       = errorUploadRec.meta.percent) ∧
    (({ url := some "u" } : UploadParams).url = some "u" ∧
     errorUploadRec.xhr = some 0 ∧ 0 < 5 ∧
     (uploadFileResolve (some { url := some "u" }) errorUploadRec 5).record.xhr
       = some 5 ∧
     (uploadFileResolve (some { url := some "u" }) errorUploadRec 5).record.xhr
       ≠ errorUploadRec.xhr ∧
     (uploadFileResolve (some { url := some "u" }) errorUploadRec 5).nextXhr
       = 5 + 1) ∧
    (({ url := none } : UploadParams).url = none ∧
     (uploadFileResolve (some { url := none }) errorUploadRec 5).record.meta.status
       = some Status.error_upload_params ∧
     (uploadFileResolve (some { url := none }) errorUploadRec 5).record.xhr
       = errorUploadRec.xhr) ∧
    ((uploadFileResolve none errorUploadRec 5).record.meta.status
       = some Status.error_upload_params ∧
     (uploadFileResolve none errorUploadRec 5).record.xhr
       = errorUploadRec.xhr) ∧
    (cfgNoUpload.hasGetUploadParams = false ∧
     (handleRestart cfgNoUpload errorUploadRec).task = UploadTask.noProvider) :=
  ⟨c3_amended.1 cfgUpload errorUploadRec,
   ⟨rfl, rfl, by decide,
    c3_amended.2.1 { url := some "u" } "u" errorUploadRec 5 0 rfl rfl (by decide)⟩,
   ⟨rfl,
    c3_amended.2.2.1 { url := none } errorUploadRec 5 rfl⟩,
   c3_amended.2.2.2.1 errorUploadRec 5,
   ⟨rfl, c3_amended.2.2.2.2 cfgNoUpload errorUploadRec rfl⟩⟩

/-- Claim C9 counterexample: disposing the manager while it holds a
record in status uploading whose transport handle is not yet attached
(the window between the upload trigger setting the status and the
provider resolving) faults: the teardown loop dereferences a missing
handle. -/
theorem c9_counterexample :
    uploadingNoXhr.meta.status = some Status.uploading ∧
    uploadingNoXhr.xhr = none ∧
    componentWillUnmount [uploadingNoXhr] = none :=
  ⟨rfl, rfl, rfl⟩

/-- Claim C9 amended: on disposal, provided every record in status
uploading already has a transport handle attached, the teardown aborts
exactly the handles of the uploading records, without faulting; a record
whose upload has started but whose handle is not yet attached instead
makes the teardown fault. -/
theorem c9_amended :
    ∀ files : List FileWithMeta,
      (∀ f ∈ files, f.meta.status = some Status.uploading → f.xhr ≠ none) →
      componentWillUnmount files
        = some (files.filterMap (fun f =>
            if f.meta.status = some Status.uploading then f.xhr else none)) := by
  intro files h
  induction files with
  | nil => rfl
  | cons f fs ih =>
    have hf := h f (List.mem_cons_self f fs)
    have hfs : ∀ g ∈ fs, g.meta.status = some Status.uploading → g.xhr ≠ none :=
      fun g hg => h g (List.mem_cons_of_mem f hg)
    by_cases hst : f.meta.status = some Status.uploading
    · obtain ⟨x, hx⟩ := Option.ne_none_iff_exists'.mp (hf hst)
      rw [show componentWillUnmount (f :: fs)
            = if f.meta.status = some Status.uploading then
                match f.xhr with
                | none => none
                | some h => (componentWillUnmount fs).map (fun l => h :: l)
              else componentWillUnmount fs from rfl]
      rw [if_pos hst, hx, ih hfs, List.filterMap_cons, if_pos hst, hx]
      rfl
    · rw [show componentWillUnmount (f :: fs)
            = if f.meta.status = some Status.uploading then
                match f.xhr with
                | none => none
                | some h => (componentWillUnmount fs).map (fun l => h :: l)
              else componentWillUnmount fs from rfl]
      rw [if_neg hst, ih hfs, List.filterMap_cons, if_neg hst]

/-- Witness for C9 on a concrete collection with one uploading record
holding handle 0 and one record still preparing. -/
theorem c9_witness :
    (∀ f ∈ [uploadingRec, acceptedA],
       f.meta.status = some Status.uploading → f.xhr ≠ none) ∧
    componentWillUnmount [uploadingRec, acceptedA]
      = some ([uploadingRec, acceptedA].filterMap (fun f =>
          if f.meta.status = some Status.uploading then f.xhr else none)) :=
  ⟨by decide, c9_amended [uploadingRec, acceptedA] (by decide)⟩

/-- Pushing a record carrying the current counter as id preserves the
id-uniqueness invariant. -/
theorem inv_push (s : DState) (fwm : FileWithMeta)
    (hid : fwm.meta.id = s.counter) (h : Inv s) :
    Inv { files := s.files ++ [fwm], counter := s.counter + 1
          nextXhr := s.nextXhr, idsEver := s.idsEver ++ [s.counter] } := by
  obtain ⟨hnd, hlt, hmem, hfnd⟩ := h
  have hcnotin : s.counter ∉ s.idsEver := fun hc => lt_irrefl _ (hlt _ hc)
  have hcnotinf : s.counter ∉ s.files.map (fun f => f.meta.id) := by
    intro hc
    obtain ⟨g, hg, hgid⟩ := List.mem_map.mp hc
    exact hcnotin (hgid ▸ hmem g hg)
  refine ⟨?_, ?_, ?_, ?_⟩
  · rw [List.nodup_append]
    refine ⟨hnd, List.nodup_singleton _, ?_⟩
    intro a ha hb
    rw [List.mem_singleton.mp hb] at ha
    exact hcnotin ha
  · intro i hi
    rcases List.mem_append.mp hi with hi | hi
    · exact Nat.lt_succ_of_lt (hlt i hi)
    · rw [List.mem_singleton.mp hi]
      exact Nat.lt_succ_self _
  · intro g hg
    rcases List.mem_append.mp hg with hg | hg
    · exact List.mem_append_left _ (hmem g hg)
    · rw [List.mem_singleton.mp hg, hid]
      exact List.mem_append_right _ (List.mem_singleton.mpr rfl)
  · rw [List.map_append, List.nodup_append]
    refine ⟨hfnd, by simp, ?_⟩
    intro a ha hb
    have hac : a = s.counter := by simpa [hid] using hb
    subst hac
    exact hcnotinf ha

/-- Accepting one raw file preserves the id-uniqueness invariant:
rejections leave the state untouched and a retained record is pushed
with the counter as its fresh id. -/
theorem inv_handleFileSync (cfg : Config) (f : FileDesc) (now : String)
    (s : DState) (h : Inv s) : Inv (handleFileSync cfg f now s).2 := by
  dsimp only [handleFileSync]
  by_cases h1 : f.type ≠ "application/x-moz-file" ∧
      cfg.acceptsFn f cfg.accept = false
  · rw [if_pos h1]
    exact h
  · rw [if_neg h1]
    by_cases h2 : cfg.maxFiles ≤ s.files.length
    · rw [if_pos h2]
      exact h
    · rw [if_neg h2]
      by_cases h3 : f.size < cfg.minSizeBytes ∨ cfg.maxSizeBytes < f.size
      · rw [if_pos h3]
        exact inv_push s _ rfl h
      · rw [if_neg h3]
        exact inv_push s _ rfl h

/-- Removing a record preserves the id-uniqueness invariant. -/
theorem inv_handleRemove (i : ℕ) (s : DState) (h : Inv s) :
    Inv (handleRemove i s) := by
  unfold handleRemove
  cases hidx : s.files.findIdx? (fun f => f.meta.id = i) with
  | none => exact h
  | some idx =>
    obtain ⟨hnd, hlt, hmem, hfnd⟩ := h
    refine ⟨hnd, hlt, ?_, ?_⟩
    · intro g hg
      exact hmem g ((s.files.eraseIdx_sublist idx).subset hg)
    · exact hfnd.sublist ((s.files.eraseIdx_sublist idx).map _)

/-- Restarting a record preserves the id-uniqueness invariant: the
status update leaves every id unchanged. -/
theorem inv_handleRestartById (i : ℕ) (s : DState) (h : Inv s) :
    Inv (handleRestartById i s) := by
  obtain ⟨hnd, hlt, hmem, hfnd⟩ := h
  have hidpres : ∀ g : FileWithMeta,
      ((if g.meta.id = i then
          { g with meta := { g.meta with status := some Status.uploading } }
        else g) : FileWithMeta).meta.id = g.meta.id := by
    intro g
    split <;> rfl
  refine ⟨hnd, hlt, ?_, ?_⟩
  · intro g hg
    rw [handleRestartById] at hg
    obtain ⟨g0, hg0, hgeq⟩ := List.mem_map.mp hg
    rw [← hgeq, hidpres g0]
    exact hmem g0 hg0
  · show (((handleRestartById i s).files).map (fun f => f.meta.id)).Nodup
    rw [handleRestartById]
    dsimp only
    rw [List.map_map]
    have hmap : s.files.map ((fun f : FileWithMeta => f.meta.id) ∘
        (fun f : FileWithMeta =>
          if f.meta.id = i then
            { f with meta := { f.meta with status := some Status.uploading } }
          else f))
        = s.files.map (fun f => f.meta.id) :=
      List.map_congr_left (fun g _ => hidpres g)
    rw [hmap]
    exact hfnd

/-- Every single operation preserves the id-uniqueness invariant. -/
theorem inv_step (cfg : Config) (s : DState) (op : Op) (h : Inv s) :
    Inv (step cfg s op) := by
  cases op with
  | acceptF f now => exact inv_handleFileSync cfg f now s h
  | removeF i => exact inv_handleRemove i s h
  | restartF i => exact inv_handleRestartById i s h

/-- The id-uniqueness invariant holds after any operation sequence. -/
theorem inv_run (cfg : Config) (ops : List Op) : Inv (run cfg ops) := by
  have hinit : Inv initState := by
    refine ⟨List.nodup_nil, ?_, ?_, List.nodup_nil⟩ <;> intro x hx <;> cases hx
  suffices hgen : ∀ s, Inv s → Inv (ops.foldl (step cfg) s) from hgen initState hinit
  induction ops with
  | nil => intro s hs; exact hs
  | cons op ops ih =>
    intro s hs
    exact ih _ (inv_step cfg s op hs)

/-- Claim C8: across any sequence of accept, remove and restart
operations, the ids of records ever retained in the collection are
pairwise distinct (never reused, even after removals), and the current
collection always carries pairwise distinct ids drawn from that
history. -/
theorem c8_ids_unique :
    ∀ (cfg : Config) (ops : List Op),
      (run cfg ops).idsEver.Nodup ∧
      ((run cfg ops).files.map (fun f => f.meta.id)).Nodup ∧
      (∀ f ∈ (run cfg ops).files, f.meta.id ∈ (run cfg ops).idsEver) := by
  intro cfg ops
  obtain ⟨h1, h2, h3, h4⟩ := inv_run cfg ops
  exact ⟨h1, h4, h3⟩

/-- Claim C10: the module-level id counter is incremented only when a
record is retained: a file rejected for type or capacity leaves the
manager state (counter included) unchanged while its transient record
carries the current counter as id, and the next file that passes the
checks pushes a retained record with that same id. -/
theorem c10_rejected_id_reuse :
    (∀ (cfg : Config) (f : FileDesc) (now : String) (s : DState),
       f.type ≠ "application/x-moz-file" →
       cfg.acceptsFn f cfg.accept = false →
       (handleFileSync cfg f now s).2 = s ∧
       ((handleFileSync cfg f now s).1).record.meta.id = s.counter ∧
       ∃ t, (handleFileSync cfg f now s).1 = AcceptOutcome.rejectedType t) ∧
    (∀ (cfg : Config) (f : FileDesc) (now : String) (s : DState),
       (f.type = "application/x-moz-file" ∨ cfg.acceptsFn f cfg.accept = true) →
       cfg.maxFiles ≤ s.files.length →
       (handleFileSync cfg f now s).2 = s ∧
       ((handleFileSync cfg f now s).1).record.meta.id = s.counter ∧
       ∃ t, (handleFileSync cfg f now s).1 = AcceptOutcome.rejectedMax t) ∧
    (∀ (cfg : Config) (f : FileDesc) (now : String) (s : DState),
       (f.type = "application/x-moz-file" ∨ cfg.acceptsFn f cfg.accept = true) →
       s.files.length < cfg.maxFiles →
       ((handleFileSync cfg f now s).1).record.meta.id = s.counter ∧
       ((handleFileSync cfg f now s).2).idsEver = s.idsEver ++ [s.counter] ∧
       ((handleFileSync cfg f now s).2).counter = s.counter + 1) := by
  have htype : ∀ (cfg : Config) (f : FileDesc),
      (f.type = "application/x-moz-file" ∨ cfg.acceptsFn f cfg.accept = true) →
      ¬(f.type ≠ "application/x-moz-file" ∧
        cfg.acceptsFn f cfg.accept = false) := by
    intro cfg f h1
    rcases h1 with h | h
    · exact fun hc => hc.1 h
    · intro hc
      rw [h] at hc
      exact Bool.noConfusion hc.2
  refine ⟨?_, ?_, ?_⟩
  · intro cfg f now s h1 h2
    dsimp only [handleFileSync]
    rw [if_pos ⟨h1, h2⟩]
    exact ⟨rfl, rfl, _, rfl⟩
  · intro cfg f now s h1 h2
    dsimp only [handleFileSync]
    rw [if_neg (htype cfg f h1), if_pos h2]
    exact ⟨rfl, rfl, _, rfl⟩
  · intro cfg f now s h1 h2
    dsimp only [handleFileSync]
    rw [if_neg (htype cfg f h1), if_neg (Nat.not_le.mpr h2)]
    by_cases h3 : f.size < cfg.minSizeBytes ∨ cfg.maxSizeBytes < f.size
    · rw [if_pos h3]
      exact ⟨rfl, rfl, rfl⟩
    · rw [if_neg h3]
      exact ⟨rfl, rfl, rfl⟩

/-- Witness for C10: with the image-only accept pattern, the text file
is rejected with transient id 0 and the state unchanged; with capacity
zero the image file is rejected likewise; and accepting the image file
from the unchanged initial state retains it with the same id 0. -/
theorem c10_witness :
    (fileA.type ≠ "application/x-moz-file" ∧
     cfgStrict.acceptsFn fileA cfgStrict.accept = false ∧
     (handleFileSync cfgStrict fileA "t0" initState).2 = initState ∧
     ((handleFileSync cfgStrict fileA "t0" initState).1).record.meta.id
       = initState.counter ∧
     (∃ t, (handleFileSync cfgStrict fileA "t0" initState).1
       = AcceptOutcome.rejectedType t)) ∧
    ((imageFile.type = "application/x-moz-file" ∨
       cfgZeroMax.acceptsFn imageFile cfgZeroMax.accept = true) ∧
     cfgZeroMax.maxFiles ≤ initState.files.length ∧
     (handleFileSync cfgZeroMax imageFile "t0" initState).2 = initState ∧
     ((handleFileSync cfgZeroMax imageFile "t0" initState).1).record.meta.id
       = initState.counter ∧
     (∃ t, (handleFileSync cfgZeroMax imageFile "t0" initState).1
       = AcceptOutcome.rejectedMax t)) ∧
    ((imageFile.type = "application/x-moz-file" ∨
       cfgStrict.acceptsFn imageFile cfgStrict.accept = true) ∧
     initState.files.length < cfgStrict.maxFiles ∧
     ((handleFileSync cfgStrict imageFile "t0" initState).1).record.meta.id
       = initState.counter ∧
     ((handleFileSync cfgStrict imageFile "t0" initState).2).idsEver
       = initState.idsEver ++ [initState.counter] ∧
     ((handleFileSync cfgStrict imageFile "t0" initState).2).counter
       = initState.counter + 1) :=
  ⟨⟨by decide, by decide,
    c10_rejected_id_reuse.1 cfgStrict fileA "t0" initState (by decide) (by decide)⟩,
   ⟨Or.inr (by decide), by decide,
    c10_rejected_id_reuse.2.1 cfgZeroMax imageFile "t0" initState
      (Or.inr (by decide)) (by decide)⟩,
   ⟨Or.inr (by decide), by decide,
    c10_rejected_id_reuse.2.2 cfgStrict imageFile "t0" initState
      (Or.inr (by decide)) (by decide)⟩⟩

end Dropzone
